import Mathlib

/-!
Shallow embedding of the power-regulation core of `regulation.py`
(Wifi_MQTT_Solar_Balancer).  The equipment actuation module is an external
collaborator (not part of this repository's `src/`), so device behaviour is
kept abstract as a `DevModel` whose `incr`/`decr` functions model
`increase_power_by` / `decrease_power_by`; everything else is translated
directly from `regulation.py`.
-/

namespace Solar

/-- One controllable load, as consumed by the regulation loop: the
`forced` field models `force(power, duration)` state (`is_forced()` is
`forced.isSome`), `currentPower` models `get_current_power()` (`none` =
unknown), `energy` models `get_energy()`. -/
structure Equipment where
  name : String
  maxPower : Int
  currentPower : Option Int
  energy : Int
  forced : Option (Int × Option ℚ)
deriving DecidableEq, Repr

/-- Abstract device semantics for `increase_power_by` / `decrease_power_by`:
given the equipment's current state and the requested delta, return the
Python return value (`none` = confirmation pending) and the device state
after the (possibly fire-and-forget) command. -/
structure DevModel where
  incr : Equipment → Int → Option Int × Equipment
  decr : Equipment → Int → Option Int × Equipment

/-- A record of one device interaction performed by the balancer:
which equipment index was targeted, what was requested and what came back.
`recovery i needed freeable freed` summarises one completed recovery pass
triggered by equipment `i`. -/
inductive REvent where
  | decr (idx : Nat) (req : Int) (res : Option Int)
  | incr (idx : Nat) (req : Int) (res : Option Int)
  | recovery (idx : Nat) (needed freeable freed : Int)
deriving DecidableEq, Repr

/-- The equipment index an event targets. -/
def REvent.idx : REvent → Nat
  | .decr i _ _ => i
  | .incr i _ _ => i
  | .recovery i _ _ _ => i

/-- Messages emitted at the evaluation level: the Domoticz injection
message (with its `svalue`), the JSON status snapshot, and the fallback's
`force(max_power, duration)` call on the water heater. -/
inductive PubEvent where
  | injection (svalue : Int)
  | status
  | forceWH (power : Int) (duration : ℚ)
deriving DecidableEq, Repr

/-- How one call to `evaluate()` ended.  `failedCloud` and `failedBalance`
are Python exceptions caught by the `try`/`except` at the evaluation
boundary (the forecast fetch raising, resp. a `TypeError` inside the
balancing loops). -/
inductive Outcome where
  | skippedRate
  | skippedReadings
  | completed
  | failedCloud
  | failedBalance
deriving DecidableEq, Repr

/-- Configuration constants read from `config.ini`. -/
structure Config where
  EVALUATION_PERIOD : Int
  BALANCE_THRESHOLD : Int
  MARGIN : Int
  LOW_ECS_ENERGY_TWO_DAYS : Int
  LOW_ECS_ENERGY_TODAY : Int
deriving DecidableEq, Repr

/-- The process-wide regulation state: module-level globals of
`regulation.py` plus the equipment list (`whIdx` is the position of the
designated water heater, index 0 in `main`). -/
structure RegState where
  lastEvaluationDate : Option Int
  lastInjection : Int
  powerProduction : Option Int
  powerConsumption : Option Int
  ecsEnergyYesterday : Int
  ecsEnergyToday : Int
  cloudForecast : Int
  equipments : List Equipment
  whIdx : Nat
deriving DecidableEq, Repr

/-- Result of one balancing pass: final equipment list, device
interactions, and whether a Python exception escaped to the boundary
handler. -/
structure PassOut where
  eqs : List Equipment
  events : List REvent
  crashed : Bool
deriving DecidableEq, Repr

/-- Result of the recovery loop (`for j in reversed(range(i+1, len))`). -/
structure RecOut where
  eqs : List Equipment
  freed : Int
  needed : Int
  events : List REvent
  crashed : Bool
deriving DecidableEq, Repr

/-- Result of the deficit loop (`for e in reversed(equipments)`). -/
structure DecrOut where
  eqs : List Equipment
  excess : Int
  events : List REvent
deriving DecidableEq, Repr

/-- Result of one `evaluate()` call. -/
structure EvalOut where
  state : RegState
  pubs : List PubEvent
  outcome : Outcome
deriving DecidableEq, Repr

/-- Prepends bookkeeping events to a pass result. -/
def PassOut.mapEvents (f : List REvent → List REvent) (p : PassOut) : PassOut :=
  ⟨p.eqs, f p.events, p.crashed⟩

/-- Model of `freeable_power`: sum of the known current power of the non-forced
equipments strictly after index `i` (regulation.py lines 281-289). -/
def freeablePower (eqs : List Equipment) (i : Nat) : Int :=
  (eqs.drop (i+1)).foldl (fun acc o =>
    if o.forced.isSome then acc
    else match o.currentPower with
      | none => acc
      | some p => acc + p) 0

/-- The recovery loop (regulation.py lines 293-303): walk the given index
list (lowest priority first), decreasing each non-forced equipment by the
still-needed power.  A `None` return from `decrease_power_by` is added to
`freed_power` unguarded in the source, which raises `TypeError`; this is
the `crashed := true` arm. -/
def recoveryLoop (dev : DevModel) : List Nat → List Equipment → Int → Int → RecOut
  | [], eqs, freed, needed => ⟨eqs, freed, needed, [], false⟩
  | j :: rest, eqs, freed, needed =>
    match eqs[j]? with
    | none => recoveryLoop dev rest eqs freed needed
    | some o =>
      if o.forced.isSome then recoveryLoop dev rest eqs freed needed
      else match dev.decr o needed with
      | (none, o') => ⟨eqs.set j o', freed, needed, [REvent.decr j needed none], true⟩
      | (some r, o') =>
        let eqs1 := eqs.set j o'
        let freed1 := freed + r
        let needed1 := needed - r
        if needed1 ≤ 0 then ⟨eqs1, freed1, needed1, [REvent.decr j needed (some r)], false⟩
        else
          let out := recoveryLoop dev rest eqs1 freed1 needed1
          ⟨out.eqs, out.freed, out.needed, REvent.decr j needed (some r) :: out.events, out.crashed⟩

/-- The excess branch's increase loop (regulation.py lines 264-312),
indexed by remaining fuel (number of loop iterations left; the loop visits
each index once).  Faithful details: the `available_power <= 0` check runs
before the forced check; a negative return triggers the freeable-power
summation and, when sufficient, the recovery loop followed by an
unconditional retry whose result overwrites `available_power`; a `none`
retry result makes the next iteration's `None <= 0` comparison raise
(`crashed := true`) unless the loop is already past the last equipment. -/
def incrLoop (dev : DevModel) : Nat → Nat → Int → List Equipment → PassOut
  | 0, _, _, eqs => ⟨eqs, [], false⟩
  | fuel+1, i, avail, eqs =>
    if avail ≤ 0 then ⟨eqs, [], false⟩
    else match eqs[i]? with
    | none => ⟨eqs, [], false⟩
    | some e =>
      if e.forced.isSome then incrLoop dev fuel (i+1) avail eqs
      else match dev.incr e avail with
      | (none, e') => ⟨eqs.set i e', [REvent.incr i avail none], false⟩
      | (some r, e') =>
        let eqs1 := eqs.set i e'
        let ev1 := REvent.incr i avail (some r)
        if r = 0 then ⟨eqs1, [ev1], false⟩
        else if r < 0 then
          let needed := -r
          let fp := freeablePower eqs1 i
          if fp ≥ needed then
            let rec1 := recoveryLoop dev (List.range' (i+1) (eqs.length - (i+1))).reverse eqs1 0 needed
            if rec1.crashed then ⟨rec1.eqs, ev1 :: rec1.events, true⟩
            else
              let ev2 := REvent.recovery i needed fp rec1.freed
              match rec1.eqs[i]? with
              | none => ⟨rec1.eqs, ev1 :: rec1.events ++ [ev2], false⟩
              | some e2 =>
                match dev.incr e2 (avail + rec1.freed) with
                | (none, e2') =>
                  let eqs2 := rec1.eqs.set i e2'
                  let evs := ev1 :: rec1.events ++ [ev2, REvent.incr i (avail + rec1.freed) none]
                  if i + 1 < eqs2.length then ⟨eqs2, evs, true⟩ else ⟨eqs2, evs, false⟩
                | (some r2, e2') =>
                  let eqs2 := rec1.eqs.set i e2'
                  let out := incrLoop dev fuel (i+1) r2 eqs2
                  ⟨out.eqs, ev1 :: rec1.events ++ [ev2, REvent.incr i (avail + rec1.freed) (some r2)] ++ out.events, out.crashed⟩
          else incrLoop dev fuel (i+1) avail eqs1 |>.mapEvents (ev1 :: ·)
        else incrLoop dev fuel (i+1) r eqs1 |>.mapEvents (ev1 :: ·)

/-- The deficit branch's decrease loop (regulation.py lines 241-255):
visits indices `k-1, k-2, ..., 0` (lowest priority first), skipping forced
equipment, stopping on a `None` return or once the excess is cancelled. -/
def decrLoop (dev : DevModel) : Nat → Int → List Equipment → DecrOut
  | 0, excess, eqs => ⟨eqs, excess, []⟩
  | k+1, excess, eqs =>
    match eqs[k]? with
    | none => ⟨eqs, excess, []⟩
    | some e =>
      if e.forced.isSome then decrLoop dev k excess eqs
      else match dev.decr e excess with
      | (none, e') => ⟨eqs.set k e', excess, [REvent.decr k excess none]⟩
      | (some r, e') =>
        let eqs1 := eqs.set k e'
        let excess1 := excess - r
        if excess1 ≤ 0 then ⟨eqs1, excess1, [REvent.decr k excess (some r)]⟩
        else
          let out := decrLoop dev k excess1 eqs1
          ⟨out.eqs, out.excess, REvent.decr k excess (some r) :: out.events⟩

/-- The three-way power comparison of `evaluate` (regulation.py lines
237-312): deficit, balanced, or excess branch. -/
def balance (dev : DevModel) (cons prod margin thr : Int) (eqs : List Equipment) : PassOut :=
  if prod - margin < cons then
    let out := decrLoop dev eqs.length (cons - (prod - margin)) eqs
    ⟨out.eqs, out.events, false⟩
  else if prod - margin - cons < thr then ⟨eqs, [], false⟩
  else incrLoop dev eqs.length 0 (prod - margin - cons) eqs

/-- The Domoticz injection block (regulation.py lines 316-328): publish
the signed difference when it is negative; otherwise clamp to zero and
publish a single zero on the transition (`last_injection != 0`).  Returns
the published `svalue` (if any) and the new `last_injection`. -/
def injectionStep (cons prod lastInj : Int) : Option Int × Int :=
  let injection := cons - prod
  if injection < 0 then (some injection, injection)
  else if lastInj ≠ 0 then (some 0, 0)
  else (none, 0)

/-- Model of `low_energy_fallback` (regulation.py lines 178-196) on the water
heater `wh` with the current energy counters: when two-day and today
energies are both below their thresholds, force the heater to `max_power`
for `3600 * (LOW_ECS_ENERGY_TODAY - ECS_energy_today) / max_power`
seconds and save `ECS_energy_yesterday = ECS_energy_today`.  Returns the
heater, the new `ECS_energy_yesterday`, and the force action if fired. -/
def low_energy_fallback (lowTwo lowToday : Int) (wh : Equipment) (eYest eToday : Int) :
    Equipment × Int × Option (Int × ℚ) :=
  if eYest + eToday < lowTwo ∧ eToday < lowToday then
    let dur : ℚ := 3600 * ((lowToday : ℚ) - (eToday : ℚ)) / (wh.maxPower : ℚ)
    ({ wh with forced := some (wh.maxPower, some dur) }, eToday, some (wh.maxPower, dur))
  else (wh, eYest, none)

/-- Applies `low_energy_fallback` to the regulation state (the heater is
`equipments[whIdx]`). -/
def lowEnergyFallbackStep (cfg : Config) (st : RegState) : RegState × List PubEvent :=
  match st.equipments[st.whIdx]? with
  | none => (st, [])
  | some wh =>
    let out := low_energy_fallback cfg.LOW_ECS_ENERGY_TWO_DAYS cfg.LOW_ECS_ENERGY_TODAY
      wh st.ecsEnergyYesterday st.ecsEnergyToday
    ({ st with equipments := st.equipments.set st.whIdx out.1, ecsEnergyYesterday := out.2.1 },
     match out.2.2 with
     | some (p, d) => [PubEvent.forceWH p d]
     | none => [])

/-- Result of the day-rollover block: state, emitted events, and whether
the block completed (`ok = false` models the forecast fetch raising, the
exception being caught only at the evaluation boundary). -/
structure RollOut where
  state : RegState
  pubs : List PubEvent
  ok : Bool
deriving DecidableEq, Repr

/-- The day-rollover block (regulation.py lines 211-222): snapshot the
heater's accumulated energy into `ECS_energy_today`, refresh the cloud
forecast (`cloud = none` models `getCloudAvg` raising), reset every
equipment's energy accumulator, then run the fallback. -/
def rolloverStep (cfg : Config) (cloud : Option Int) (st : RegState) : RollOut :=
  let heaterE := ((st.equipments[st.whIdx]?).map Equipment.energy).getD 0
  let st1 := { st with ecsEnergyToday := heaterE }
  match cloud with
  | none => ⟨st1, [], false⟩
  | some c =>
    let st2 := { st1 with cloudForecast := c,
                          equipments := st1.equipments.map (fun e => { e with energy := 0 }) }
    let out := lowEnergyFallbackStep cfg st2
    ⟨out.1, out.2, true⟩

/-- The body of `evaluate` after both guards (regulation.py lines
228-348): advance `last_evaluation_date`, defer while either reading is
missing, balance, then publish injection and status. -/
def evalCore (cfg : Config) (dev : DevModel) (t : Int) (st : RegState)
    (pubs0 : List PubEvent) : EvalOut :=
  let st0 := { st with lastEvaluationDate := some t }
  match st0.powerProduction, st0.powerConsumption with
  | some prod, some cons =>
    let out := balance dev cons prod cfg.MARGIN cfg.BALANCE_THRESHOLD st0.equipments
    let st1 := { st0 with equipments := out.eqs }
    if out.crashed then ⟨st1, pubs0, Outcome.failedBalance⟩
    else
      let inj := injectionStep cons prod st1.lastInjection
      let st2 := { st1 with lastInjection := inj.2 }
      ⟨st2, pubs0 ++ (match inj.1 with
        | some v => [PubEvent.injection v]
        | none => []) ++ [PubEvent.status], Outcome.completed⟩
  | _, _ => ⟨st0, pubs0, Outcome.skippedReadings⟩

/-- Model of `evaluate()` (regulation.py lines 198-352): day-rollover guard (checked
against the previous evaluation timestamp), then the rate-limit guard,
then the core; any exception is caught at this boundary (the `Outcome`
records it, the function still returns the state reached). -/
def evaluate (cfg : Config) (dev : DevModel) (cloud : Option Int) (dayOf : Int → Int)
    (t : Int) (st : RegState) : EvalOut :=
  match st.lastEvaluationDate with
  | none => evalCore cfg dev t st []
  | some t0 =>
    let r := if dayOf t0 = dayOf t then (⟨st, [], true⟩ : RollOut) else rolloverStep cfg cloud st
    if r.ok = false then ⟨r.state, r.pubs, Outcome.failedCloud⟩
    else if t - t0 < cfg.EVALUATION_PERIOD then ⟨r.state, r.pubs, Outcome.skippedRate⟩
    else evalCore cfg dev t r.state r.pubs

/-! ### Forced-equipment preservation (C1) -/

theorem recoveryLoop_preserve (dev : DevModel) (m : Nat) (e : Equipment)
    (hf : e.forced.isSome) :
    ∀ (idxs : List Nat) (eqs : List Equipment) (freed needed : Int),
      eqs[m]? = some e →
      (recoveryLoop dev idxs eqs freed needed).eqs[m]? = some e ∧
      ∀ ev ∈ (recoveryLoop dev idxs eqs freed needed).events, ev.idx ≠ m := by
  intro idxs
  induction idxs with
  | nil =>
    intro eqs freed needed hi
    simpa [recoveryLoop] using hi
  | cons j rest ih =>
    intro eqs freed needed hi
    rcases hj : eqs[j]? with _ | o
    · simpa [recoveryLoop, hj] using ih eqs freed needed hi
    · by_cases hof : o.forced.isSome
      · simpa [recoveryLoop, hj, hof] using ih eqs freed needed hi
      · have hjm : j ≠ m := by
          intro h; subst h; rw [hi] at hj; cases hj; exact hof hf
        rcases hdv : dev.decr o needed with ⟨res, o'⟩
        rcases res with _ | r
        · constructor
          · simp [recoveryLoop, hj, hof, hdv, List.getElem?_set_ne hjm, hi]
          · intro ev hev
            simp [recoveryLoop, hj, hof, hdv] at hev
            simp [hev, REvent.idx, hjm]
        · have hi1 : (eqs.set j o')[m]? = some e := by
            rw [List.getElem?_set_ne hjm]; exact hi
          by_cases hstop : needed - r ≤ 0
          · constructor
            · simp [recoveryLoop, hj, hof, hdv, hstop, hi1]
            · intro ev hev
              simp [recoveryLoop, hj, hof, hdv, hstop] at hev
              simp [hev, REvent.idx, hjm]
          · have := ih (eqs.set j o') (freed + r) (needed - r) hi1
            constructor
            · simpa [recoveryLoop, hj, hof, hdv, hstop] using this.1
            · intro ev hev
              simp [recoveryLoop, hj, hof, hdv, hstop] at hev
              rcases hev with hev | hev
              · simp [hev, REvent.idx, hjm]
              · exact this.2 ev hev

theorem decrLoop_preserve (dev : DevModel) (m : Nat) (e : Equipment)
    (hf : e.forced.isSome) :
    ∀ (k : Nat) (excess : Int) (eqs : List Equipment),
      eqs[m]? = some e →
      (decrLoop dev k excess eqs).eqs[m]? = some e ∧
      ∀ ev ∈ (decrLoop dev k excess eqs).events, ev.idx ≠ m := by
  intro k
  induction k with
  | zero =>
    intro excess eqs hi
    simpa [decrLoop] using hi
  | succ k ih =>
    intro excess eqs hi
    rcases hk : eqs[k]? with _ | ek
    · simpa [decrLoop, hk] using hi
    · by_cases hof : ek.forced.isSome
      · simpa [decrLoop, hk, hof] using ih excess eqs hi
      · have hkm : k ≠ m := by
          intro h; subst h; rw [hi] at hk; cases hk; exact hof hf
        rcases hdv : dev.decr ek excess with ⟨res, e'⟩
        rcases res with _ | r
        · constructor
          · simp [decrLoop, hk, hof, hdv, List.getElem?_set_ne hkm, hi]
          · intro ev hev
            simp [decrLoop, hk, hof, hdv] at hev
            simp [hev, REvent.idx, hkm]
        · have hi1 : (eqs.set k e')[m]? = some e := by
            rw [List.getElem?_set_ne hkm]; exact hi
          by_cases hstop : excess - r ≤ 0
          · constructor
            · simp [decrLoop, hk, hof, hdv, hstop, hi1]
            · intro ev hev
              simp [decrLoop, hk, hof, hdv, hstop] at hev
              simp [hev, REvent.idx, hkm]
          · have := ih (excess - r) (eqs.set k e') hi1
            constructor
            · simpa [decrLoop, hk, hof, hdv, hstop] using this.1
            · intro ev hev
              simp [decrLoop, hk, hof, hdv, hstop] at hev
              rcases hev with hev | hev
              · simp [hev, REvent.idx, hkm]
              · exact this.2 ev hev

theorem incrLoop_preserve (dev : DevModel) (m : Nat) (e : Equipment)
    (hf : e.forced.isSome) :
    ∀ (fuel i : Nat) (avail : Int) (eqs : List Equipment),
      eqs[m]? = some e →
      (incrLoop dev fuel i avail eqs).eqs[m]? = some e ∧
      ∀ ev ∈ (incrLoop dev fuel i avail eqs).events, ev.idx ≠ m := by
  intro fuel
  induction fuel with
  | zero =>
    intro i avail eqs hi
    simpa [incrLoop] using hi
  | succ fuel ih =>
    intro i avail eqs hi
    by_cases hav : avail ≤ 0
    · simpa [incrLoop, hav] using hi
    rcases hei : eqs[i]? with _ | ei
    · simpa [incrLoop, hav, hei] using hi
    by_cases hof : ei.forced.isSome
    · simpa [incrLoop, hav, hei, hof] using ih (i+1) avail eqs hi
    have him : i ≠ m := by
      intro h; subst h; rw [hi] at hei; cases hei; exact hof hf
    rcases hdv : dev.incr ei avail with ⟨res, e'⟩
    rcases res with _ | r
    · constructor
      · simp [incrLoop, hav, hei, hof, hdv, List.getElem?_set_ne him, hi]
      · intro ev hev
        simp [incrLoop, hav, hei, hof, hdv] at hev
        simp [hev, REvent.idx, him]
    have hi1 : (eqs.set i e')[m]? = some e := by
      rw [List.getElem?_set_ne him]; exact hi
    by_cases hr0 : r = 0
    · constructor
      · simp [incrLoop, hav, hei, hof, hdv, hr0, hi1]
      · intro ev hev
        simp [incrLoop, hav, hei, hof, hdv, hr0] at hev
        simp [hev, REvent.idx, him]
    by_cases hrneg : r < 0
    · by_cases hfp : freeablePower (eqs.set i e') i ≥ -r
      · have hrec := recoveryLoop_preserve dev m e hf
          ((List.range' (i+1) (eqs.length - (i+1))).reverse) (eqs.set i e') 0 (-r) hi1
        set rec1 := recoveryLoop dev ((List.range' (i+1) (eqs.length - (i+1))).reverse)
          (eqs.set i e') 0 (-r) with hrec1
        by_cases hcr : rec1.crashed
        · constructor
          · simp [incrLoop, hav, hei, hof, hdv, hr0, hrneg, hfp, ← hrec1, hcr, hrec.1]
          · intro ev hev
            simp [incrLoop, hav, hei, hof, hdv, hr0, hrneg, hfp, ← hrec1, hcr] at hev
            rcases hev with hev | hev
            · simp [hev, REvent.idx, him]
            · exact hrec.2 ev hev
        · rcases he2 : rec1.eqs[i]? with _ | e2
          · constructor
            · simp [incrLoop, hav, hei, hof, hdv, hr0, hrneg, hfp, ← hrec1, hcr, he2, hrec.1]
            · intro ev hev
              simp [incrLoop, hav, hei, hof, hdv, hr0, hrneg, hfp, ← hrec1, hcr, he2] at hev
              rcases hev with hev | hev | hev
              · simp [hev, REvent.idx, him]
              · exact hrec.2 ev hev
              · simp [hev, REvent.idx, him]
          · rcases hdv2 : dev.incr e2 (avail + rec1.freed) with ⟨res2, e2'⟩
            have hi2 : (rec1.eqs.set i e2')[m]? = some e := by
              rw [List.getElem?_set_ne him]; exact hrec.1
            rcases res2 with _ | r2
            · constructor
              · by_cases hlast : i + 1 < rec1.eqs.length
                · simp [incrLoop, hav, hei, hof, hdv, hr0, hrneg, hfp, ← hrec1, hcr, he2,
                    hdv2, hlast, hi2]
                · simp [incrLoop, hav, hei, hof, hdv, hr0, hrneg, hfp, ← hrec1, hcr, he2,
                    hdv2, hlast, hi2]
              · intro ev hev
                have hev' : ev = REvent.incr i avail (some r) ∨ ev ∈ rec1.events ∨
                    ev = REvent.recovery i (-r) (freeablePower (eqs.set i e') i) rec1.freed ∨
                    ev = REvent.incr i (avail + rec1.freed) none := by
                  by_cases hlast : i + 1 < rec1.eqs.length
                  · simpa [incrLoop, hav, hei, hof, hdv, hr0, hrneg, hfp, ← hrec1, hcr, he2,
                      hdv2, hlast, or_assoc] using hev
                  · simpa [incrLoop, hav, hei, hof, hdv, hr0, hrneg, hfp, ← hrec1, hcr, he2,
                      hdv2, hlast, or_assoc] using hev
                rcases hev' with hev' | hev' | hev' | hev'
                · simp [hev', REvent.idx, him]
                · exact hrec.2 ev hev'
                · simp [hev', REvent.idx, him]
                · simp [hev', REvent.idx, him]
            · have hrest := ih (i+1) r2 (rec1.eqs.set i e2') hi2
              constructor
              · simpa [incrLoop, hav, hei, hof, hdv, hr0, hrneg, hfp, ← hrec1, hcr, he2,
                  hdv2] using hrest.1
              · intro ev hev
                simp [incrLoop, hav, hei, hof, hdv, hr0, hrneg, hfp, ← hrec1, hcr, he2,
                  hdv2, or_assoc] at hev
                rcases hev with hev | hev | hev | hev | hev
                · simp [hev, REvent.idx, him]
                · exact hrec.2 ev hev
                · simp [hev, REvent.idx, him]
                · simp [hev, REvent.idx, him]
                · exact hrest.2 ev hev
      · have hrest := ih (i+1) avail (eqs.set i e') hi1
        constructor
        · simpa [incrLoop, hav, hei, hof, hdv, hr0, hrneg, hfp, PassOut.mapEvents]
            using hrest.1
        · intro ev hev
          simp [incrLoop, hav, hei, hof, hdv, hr0, hrneg, hfp, PassOut.mapEvents] at hev
          rcases hev with hev | hev
          · simp [hev, REvent.idx, him]
          · exact hrest.2 ev hev
    · have hrest := ih (i+1) r (eqs.set i e') hi1
      constructor
      · simpa [incrLoop, hav, hei, hof, hdv, hr0, hrneg, PassOut.mapEvents] using hrest.1
      · intro ev hev
        simp [incrLoop, hav, hei, hof, hdv, hr0, hrneg, PassOut.mapEvents] at hev
        rcases hev with hev | hev
        · simp [hev, REvent.idx, him]
        · exact hrest.2 ev hev

/-- The amount of power a device interaction actually removed (a confirmed
`decrease_power_by` return; `0` for anything else). -/
def removedOf : REvent → Int
  | .decr _ _ (some r) => r
  | _ => 0

/-- Total power removed over a trace of device interactions. -/
def removedSum (evs : List REvent) : Int := (evs.map removedOf).sum

/-- Every `decrease_power_by` in the deficit loop returns a bounded result:
invariant package for `decrLoop` (remaining excess stays non-negative, the
removed total accounts exactly for the drop in excess, visited indices are
below the cursor and strictly decreasing). -/
theorem decrLoop_spec (dev : DevModel)
    (hdec : ∀ e a r e2, 0 < a → dev.decr e a = (some r, e2) → 0 ≤ r ∧ r ≤ a) :
    ∀ (k : Nat) (excess : Int) (eqs : List Equipment), 0 < excess →
      0 ≤ (decrLoop dev k excess eqs).excess ∧
      removedSum (decrLoop dev k excess eqs).events =
        excess - (decrLoop dev k excess eqs).excess ∧
      (∀ ev ∈ (decrLoop dev k excess eqs).events, ev.idx < k ∧ 0 ≤ removedOf ev) ∧
      ((decrLoop dev k excess eqs).events.map REvent.idx).Pairwise (· > ·) := by
  intro k
  induction k with
  | zero =>
    intro excess eqs hex
    simp [decrLoop, removedSum]
    omega
  | succ k ih =>
    intro excess eqs hex
    rcases hk : eqs[k]? with _ | ek
    · simp [decrLoop, hk, removedSum]; omega
    by_cases hof : ek.forced.isSome
    · have := ih excess eqs hex
      refine ⟨?_, ?_, ?_, ?_⟩
      · simpa [decrLoop, hk, hof] using this.1
      · simpa [decrLoop, hk, hof] using this.2.1
      · intro ev hev
        have hev' : ev ∈ (decrLoop dev k excess eqs).events := by
          simpa [decrLoop, hk, hof] using hev
        obtain ⟨h1, h2⟩ := this.2.2.1 ev hev'
        exact ⟨by omega, h2⟩
      · simpa [decrLoop, hk, hof] using this.2.2.2
    rcases hdv : dev.decr ek excess with ⟨res, e'⟩
    rcases res with _ | r
    · refine ⟨?_, ?_, ?_, ?_⟩
      · simp [decrLoop, hk, hof, hdv]; omega
      · simp [decrLoop, hk, hof, hdv, removedSum, removedOf]
      · intro ev hev
        simp [decrLoop, hk, hof, hdv] at hev
        simp [hev, REvent.idx, removedOf]
      · simp [decrLoop, hk, hof, hdv]
    have hbnd := hdec ek excess r e' hex hdv
    by_cases hstop : excess - r ≤ 0
    · refine ⟨?_, ?_, ?_, ?_⟩
      · simp [decrLoop, hk, hof, hdv, hstop]; omega
      · simp [decrLoop, hk, hof, hdv, hstop, removedSum, removedOf]
      · intro ev hev
        simp [decrLoop, hk, hof, hdv, hstop] at hev
        constructor
        · simp [hev, REvent.idx]
        · simp [hev, removedOf]; omega
      · simp [decrLoop, hk, hof, hdv, hstop]
    · have hex1 : 0 < excess - r := by omega
      have hcont : decrLoop dev (k+1) excess eqs =
          ⟨(decrLoop dev k (excess - r) (eqs.set k e')).eqs,
           (decrLoop dev k (excess - r) (eqs.set k e')).excess,
           REvent.decr k excess (some r) ::
             (decrLoop dev k (excess - r) (eqs.set k e')).events⟩ := by
        simp [decrLoop, hk, hof, hdv, hstop]
      have := ih (excess - r) (eqs.set k e') hex1
      rw [hcont]
      refine ⟨this.1, ?_, ?_, ?_⟩
      · have h1 := this.2.1
        simp only [removedSum, List.map_cons, List.sum_cons] at h1 ⊢
        simp only [removedOf]
        omega
      · intro ev hev
        simp only [List.mem_cons] at hev
        rcases hev with hev | hev
        · constructor
          · simp [hev, REvent.idx]
          · simp [hev, removedOf]; omega
        · obtain ⟨h1, h2⟩ := this.2.2.1 ev hev
          exact ⟨by omega, h2⟩
      · have hp := this.2.2.2
        have hlt := this.2.2.1
        rw [List.map_cons, List.pairwise_cons]
        constructor
        · intro b hb
          obtain ⟨ev', hev', rfl⟩ := List.mem_map.1 hb
          have := (hlt ev' hev').1
          simpa [REvent.idx] using this
        · exact hp

/-! ### Claim theorems: C1, C2, C9 -/

/-- C1: for every device model, every production/consumption/margin/threshold
input and every equipment list, an equipment whose forced flag is set is
never acted on by `balance()` — in the deficit pass, the excess pass, the
freeable-power summation and the recovery pass it is skipped, so its list
entry (in particular `current_power` and accumulated energy) is unchanged,
and no device interaction of the pass targets it. -/
theorem C1_forced_equipment_untouched (dev : DevModel) (cons prod margin thr : Int)
    (eqs : List Equipment) (i : Nat) (e : Equipment)
    (hi : eqs[i]? = some e) (hf : e.forced.isSome) :
    (balance dev cons prod margin thr eqs).eqs[i]? = some e ∧
    ∀ ev ∈ (balance dev cons prod margin thr eqs).events, ev.idx ≠ i := by
  by_cases h1 : prod - margin < cons
  · have h := decrLoop_preserve dev i e hf eqs.length (cons - (prod - margin)) eqs hi
    constructor
    · simpa [balance, h1] using h.1
    · intro ev hev
      refine h.2 ev ?_
      simpa [balance, h1] using hev
  · by_cases h2 : prod - margin - cons < thr
    · simp [balance, h1, h2, hi]
    · have h := incrLoop_preserve dev i e hf eqs.length 0 (prod - margin - cons) eqs hi
      constructor
      · simpa [balance, h1, h2] using h.1
      · intro ev hev
        refine h.2 ev ?_
        simpa [balance, h1, h2] using hev

/-- A trivial device model used by witnesses: every command is confirmed
with 0 watts applied and no state change. -/
def devZero : DevModel where
  incr := fun e _ => (some 0, e)
  decr := fun e _ => (some 0, e)

/-- A forced water heater used by witnesses. -/
def whForced : Equipment := ⟨"wh", 1000, some 200, 7, some (500, none)⟩

/-- A plain variable equipment used by witnesses. -/
def eqPlain : Equipment := ⟨"b", 400, some 100, 3, none⟩

/-- Witness for C1: a concrete deficit run around a forced heater leaves
its entry untouched and targets no event at it. -/
theorem C1_forced_equipment_untouched_witness :
    ([whForced, eqPlain][0]? = some whForced ∧ whForced.forced.isSome) ∧
    ((balance devZero 1000 1000 100 50 [whForced, eqPlain]).eqs[0]? = some whForced ∧
      ∀ ev ∈ (balance devZero 1000 1000 100 50 [whForced, eqPlain]).events, ev.idx ≠ 0) :=
  ⟨⟨rfl, rfl⟩, C1_forced_equipment_untouched devZero 1000 1000 100 50
    [whForced, eqPlain] 0 whForced rfl rfl⟩

/-- C2: in the deficit branch (`consumption > production - margin`), when
every `decrease_power_by` reply is non-negative and no greater than the
amount requested, the total power actually removed never exceeds the
initial excess `consumption - (production - margin)`, the walk proceeds
from lowest to highest priority (strictly decreasing indices), and every
removal is non-negative.  (The loop's early stops on a `none` reply or a
cancelled excess are part of the `decrLoop` definition.) -/
theorem C2_deficit_removal_bounded (dev : DevModel) (cons prod margin thr : Int)
    (eqs : List Equipment)
    (hdec : ∀ e a r e2, 0 < a → dev.decr e a = (some r, e2) → 0 ≤ r ∧ r ≤ a)
    (hbranch : prod - margin < cons) :
    removedSum (balance dev cons prod margin thr eqs).events ≤ cons - (prod - margin) ∧
    ((balance dev cons prod margin thr eqs).events.map REvent.idx).Pairwise (· > ·) ∧
    ∀ ev ∈ (balance dev cons prod margin thr eqs).events, 0 ≤ removedOf ev := by
  have h0 : 0 < cons - (prod - margin) := by omega
  have h := decrLoop_spec dev hdec eqs.length (cons - (prod - margin)) eqs h0
  have hev : (balance dev cons prod margin thr eqs).events =
      (decrLoop dev eqs.length (cons - (prod - margin)) eqs).events := by
    simp [balance, hbranch]
  rw [hev]
  refine ⟨by omega, h.2.2.2, fun ev hm => (h.2.2.1 ev hm).2⟩

/-- Witness for C2 at a concrete deficit input with the zero device. -/
theorem C2_deficit_removal_bounded_witness :
    ((1000 : Int) - 100 < 1000) ∧
    (removedSum (balance devZero 1000 1000 100 50 [whForced, eqPlain]).events ≤
        1000 - (1000 - 100) ∧
      ((balance devZero 1000 1000 100 50 [whForced, eqPlain]).events.map REvent.idx).Pairwise
        (· > ·) ∧
      ∀ ev ∈ (balance devZero 1000 1000 100 50 [whForced, eqPlain]).events,
        0 ≤ removedOf ev) :=
  ⟨by decide, C2_deficit_removal_bounded devZero 1000 1000 100 50 [whForced, eqPlain]
    (fun e a r e2 ha hres => by
      simp only [devZero, Prod.mk.injEq, Option.some.injEq] at hres
      omega)
    (by decide)⟩

/-- C9: if `0 <= (production - margin) - consumption < balance_threshold`,
the balancer takes the balanced branch: no equipment state change, no
device interaction, no crash.  With `consumption = production - margin`
exactly, this applies for every threshold value > 0. -/
theorem C9_balanced_branch_no_action (dev : DevModel) (cons prod margin thr : Int)
    (eqs : List Equipment)
    (h1 : 0 ≤ prod - margin - cons) (h2 : prod - margin - cons < thr) :
    balance dev cons prod margin thr eqs = ⟨eqs, [], false⟩ := by
  have hnd : ¬ (prod - margin < cons) := by omega
  simp [balance, hnd, h2]

/-- Witness for C9: consumption equal to production minus margin exactly,
with a positive threshold. -/
theorem C9_balanced_branch_no_action_witness :
    ((0 : Int) ≤ 1000 - 100 - 900 ∧ (1000 : Int) - 100 - 900 < 1) ∧
    balance devZero 900 1000 100 1 [whForced, eqPlain] = ⟨[whForced, eqPlain], [], false⟩ :=
  ⟨by decide, C9_balanced_branch_no_action devZero 900 1000 100 1 [whForced, eqPlain]
    (by decide) (by decide)⟩

/-! ### Recovery-pass bounds (C3) -/

/-- The recovery loop's `freed_power` never grows past the initially
needed power, when every `decrease_power_by` reply is bounded by the
request. -/
theorem recoveryLoop_freed_bound (dev : DevModel)
    (hdec : ∀ e a r e2, 0 < a → dev.decr e a = (some r, e2) → 0 ≤ r ∧ r ≤ a) :
    ∀ (idxs : List Nat) (eqs : List Equipment) (freed needed : Int), 0 < needed →
      (recoveryLoop dev idxs eqs freed needed).freed ≤ freed + needed := by
  intro idxs
  induction idxs with
  | nil => intro eqs freed needed hn; simp [recoveryLoop]; omega
  | cons j rest ih =>
    intro eqs freed needed hn
    rcases hj : eqs[j]? with _ | o
    · simpa [recoveryLoop, hj] using ih eqs freed needed hn
    by_cases hof : o.forced.isSome
    · simpa [recoveryLoop, hj, hof] using ih eqs freed needed hn
    rcases hdv : dev.decr o needed with ⟨res, o'⟩
    rcases res with _ | r
    · simp [recoveryLoop, hj, hof, hdv]; omega
    have hbnd := hdec o needed r o' hn hdv
    by_cases hstop : needed - r ≤ 0
    · simp [recoveryLoop, hj, hof, hdv, hstop]; omega
    · have := ih (eqs.set j o') (freed + r) (needed - r) (by omega)
      simp only [recoveryLoop, hj, hof, hdv, hstop] at *
      simp [hof, hstop]
      omega

/-- The recovery loop emits only `decrease_power_by` interactions. -/
theorem recoveryLoop_events_shape (dev : DevModel) :
    ∀ (idxs : List Nat) (eqs : List Equipment) (freed needed : Int),
      ∀ ev ∈ (recoveryLoop dev idxs eqs freed needed).events,
        ∀ j n fp fr, ev ≠ REvent.recovery j n fp fr := by
  intro idxs
  induction idxs with
  | nil => intro eqs freed needed ev hev; simp [recoveryLoop] at hev
  | cons j rest ih =>
    intro eqs freed needed ev hev
    rcases hj : eqs[j]? with _ | o
    · simp only [recoveryLoop, hj] at hev
      exact ih eqs freed needed ev hev
    by_cases hof : o.forced.isSome
    · simp only [recoveryLoop, hj, hof, if_pos] at hev
      exact ih eqs freed needed ev hev
    rcases hdv : dev.decr o needed with ⟨res, o'⟩
    rcases res with _ | r
    · simp [recoveryLoop, hj, hof, hdv] at hev
      simp [hev]
    by_cases hstop : needed - r ≤ 0
    · simp [recoveryLoop, hj, hof, hdv, hstop] at hev
      simp [hev]
    · simp [recoveryLoop, hj, hof, hdv, hstop] at hev
      rcases hev with hev | hev
      · simp [hev]
      · exact ih (eqs.set j o') (freed + r) (needed - r) ev hev

/-- The deficit loop emits only `decrease_power_by` interactions. -/
theorem decrLoop_events_shape (dev : DevModel) :
    ∀ (k : Nat) (excess : Int) (eqs : List Equipment),
      ∀ ev ∈ (decrLoop dev k excess eqs).events,
        ∀ j n fp fr, ev ≠ REvent.recovery j n fp fr := by
  intro k
  induction k with
  | zero => intro excess eqs ev hev; simp [decrLoop] at hev
  | succ k ih =>
    intro excess eqs ev hev
    rcases hk : eqs[k]? with _ | ek
    · simp [decrLoop, hk] at hev
    by_cases hof : ek.forced.isSome
    · simp only [decrLoop, hk, hof, if_pos] at hev
      exact ih excess eqs ev hev
    rcases hdv : dev.decr ek excess with ⟨res, e'⟩
    rcases res with _ | r
    · simp [decrLoop, hk, hof, hdv] at hev
      simp [hev]
    by_cases hstop : excess - r ≤ 0
    · simp [decrLoop, hk, hof, hdv, hstop] at hev
      simp [hev]
    · simp [decrLoop, hk, hof, hdv, hstop] at hev
      rcases hev with hev | hev
      · simp [hev]
      · exact ih (excess - r) (eqs.set k e') ev hev

/-- Every recovery summary emitted by the excess loop is bounded: the
power freed never exceeds the blocked equipment's needed power, which (by
the branch guard) never exceeds the freeable power observed at the moment
of the negative return. -/
theorem incrLoop_recovery_events (dev : DevModel)
    (hdec : ∀ e a r e2, 0 < a → dev.decr e a = (some r, e2) → 0 ≤ r ∧ r ≤ a) :
    ∀ (fuel i : Nat) (avail : Int) (eqs : List Equipment),
      ∀ ev ∈ (incrLoop dev fuel i avail eqs).events,
        ∀ j n fp fr, ev = REvent.recovery j n fp fr → fr ≤ n ∧ n ≤ fp := by
  intro fuel
  induction fuel with
  | zero => intro i avail eqs ev hev; simp [incrLoop] at hev
  | succ fuel ih =>
    intro i avail eqs ev hev j n fp fr hshape
    by_cases hav : avail ≤ 0
    · simp [incrLoop, hav] at hev
    rcases hei : eqs[i]? with _ | e0
    · simp [incrLoop, hav, hei] at hev
    by_cases hof : e0.forced.isSome
    · simp only [incrLoop, hav, hei, hof, if_pos, if_neg] at hev
      exact ih (i+1) avail eqs ev hev j n fp fr hshape
    rcases hdv : dev.incr e0 avail with ⟨res, e'⟩
    rcases res with _ | r
    · simp [incrLoop, hav, hei, hof, hdv] at hev
      simp [hev] at hshape
    by_cases hr0 : r = 0
    · simp [incrLoop, hav, hei, hof, hdv, hr0] at hev
      simp [hev] at hshape
    by_cases hrneg : r < 0
    · by_cases hfp : freeablePower (eqs.set i e') i ≥ -r
      · set rec1 := recoveryLoop dev ((List.range' (i+1) (eqs.length - (i+1))).reverse)
          (eqs.set i e') 0 (-r) with hrec1
        have hfreed : rec1.freed ≤ -r := by
          have h := recoveryLoop_freed_bound dev hdec
            ((List.range' (i+1) (eqs.length - (i+1))).reverse) (eqs.set i e') 0 (-r)
            (by omega)
          rw [← hrec1] at h
          omega
        have hrecshape := recoveryLoop_events_shape dev
          ((List.range' (i+1) (eqs.length - (i+1))).reverse) (eqs.set i e') 0 (-r)
        by_cases hcr : rec1.crashed
        · simp only [incrLoop, hav, hei, hof, hdv, hr0, hrneg, hfp, ← hrec1, hcr] at hev
          simp [hcr] at hev
          rcases hev with hev | hev
          · simp [hev] at hshape
          · exact absurd hshape (hrecshape ev hev j n fp fr)
        · rcases he2 : rec1.eqs[i]? with _ | e2
          · simp only [incrLoop, hav, hei, hof, hdv, hr0, hrneg, hfp, ← hrec1] at hev
            simp [hcr, he2] at hev
            rcases hev with hev | hev | hev
            · simp [hev] at hshape
            · exact absurd hshape (hrecshape ev hev j n fp fr)
            · rw [hev] at hshape
              obtain ⟨h1, h2, h3, h4⟩ := REvent.recovery.inj hshape
              subst h2; subst h3; subst h4
              exact ⟨hfreed, by omega⟩
          · rcases hdv2 : dev.incr e2 (avail + rec1.freed) with ⟨res2, e2'⟩
            rcases res2 with _ | r2
            · have hev' : ev = REvent.incr i avail (some r) ∨ ev ∈ rec1.events ∨
                  ev = REvent.recovery i (-r) (freeablePower (eqs.set i e') i) rec1.freed ∨
                  ev = REvent.incr i (avail + rec1.freed) none := by
                by_cases hlast : i + 1 < rec1.eqs.length
                · simpa [incrLoop, hav, hei, hof, hdv, hr0, hrneg, hfp, ← hrec1, hcr, he2,
                    hdv2, hlast, or_assoc] using hev
                · simpa [incrLoop, hav, hei, hof, hdv, hr0, hrneg, hfp, ← hrec1, hcr, he2,
                    hdv2, hlast, or_assoc] using hev
              rcases hev' with hev' | hev' | hev' | hev'
              · simp [hev'] at hshape
              · exact absurd hshape (hrecshape ev hev' j n fp fr)
              · rw [hev'] at hshape
                obtain ⟨h1, h2, h3, h4⟩ := REvent.recovery.inj hshape
                subst h2; subst h3; subst h4
                exact ⟨hfreed, by omega⟩
              · simp [hev'] at hshape
            · have hev' : ev = REvent.incr i avail (some r) ∨ ev ∈ rec1.events ∨
                  ev = REvent.recovery i (-r) (freeablePower (eqs.set i e') i) rec1.freed ∨
                  ev = REvent.incr i (avail + rec1.freed) (some r2) ∨
                  ev ∈ (incrLoop dev fuel (i+1) r2 (rec1.eqs.set i e2')).events := by
                simpa [incrLoop, hav, hei, hof, hdv, hr0, hrneg, hfp, ← hrec1, hcr, he2,
                  hdv2, or_assoc] using hev
              rcases hev' with hev' | hev' | hev' | hev' | hev'
              · simp [hev'] at hshape
              · exact absurd hshape (hrecshape ev hev' j n fp fr)
              · rw [hev'] at hshape
                obtain ⟨h1, h2, h3, h4⟩ := REvent.recovery.inj hshape
                subst h2; subst h3; subst h4
                exact ⟨hfreed, by omega⟩
              · simp [hev'] at hshape
              · exact ih (i+1) r2 (rec1.eqs.set i e2') ev hev' j n fp fr hshape
      · simp only [incrLoop, hav, hei, hof, hdv, hr0, hrneg, hfp, PassOut.mapEvents] at hev
        simp at hev
        rcases hev with hev | hev
        · simp [hev] at hshape
        · exact ih (i+1) avail (eqs.set i e') ev hev j n fp fr hshape
    · simp only [incrLoop, hav, hei, hof, hdv, hr0, hrneg, PassOut.mapEvents] at hev
      simp at hev
      rcases hev with hev | hev
      · simp [hev] at hshape
      · exact ih (i+1) r (eqs.set i e') ev hev j n fp fr hshape

/-! ### Claim C3 -/

/-- C3 (amended): in the excess branch, when every `decrease_power_by`
reply is bounded by the request, every completed recovery frees at most
the blocked equipment's `needed` power, and `needed` never exceeds
`freeable`, the confirmed power summed over strictly lower-priority
non-forced equipment at the moment of the negative return.  (The total
increase then granted on the retry is offered `available + freed`, so it
can legitimately exceed `freeable` alone — see the counterexample.) -/
theorem C3_recovery_freed_within_freeable (dev : DevModel) (cons prod margin thr : Int)
    (eqs : List Equipment)
    (hdec : ∀ e a r e2, 0 < a → dev.decr e a = (some r, e2) → 0 ≤ r ∧ r ≤ a) :
    ∀ ev ∈ (balance dev cons prod margin thr eqs).events,
      ∀ j n fp fr, ev = REvent.recovery j n fp fr → fr ≤ n ∧ n ≤ fp := by
  intro ev hev j n fp fr hshape
  by_cases h1 : prod - margin < cons
  · have hev' : ev ∈ (decrLoop dev eqs.length (cons - (prod - margin)) eqs).events := by
      simpa [balance, h1] using hev
    exact absurd hshape
      (decrLoop_events_shape dev eqs.length (cons - (prod - margin)) eqs ev hev' j n fp fr)
  · by_cases h2 : prod - margin - cons < thr
    · simp [balance, h1, h2] at hev
    · have hev' : ev ∈ (incrLoop dev eqs.length 0 (prod - margin - cons) eqs).events := by
        simpa [balance, h1, h2] using hev
      exact incrLoop_recovery_events dev hdec eqs.length 0 (prod - margin - cons) eqs
        ev hev' j n fp fr hshape

/-- Modelled from the spec: the equipment module is not part of this
repository's sources, so this concrete device pair follows the spec's
capability variants — `incr` behaves like a constant-power equipment
with a discrete step at `max_power` (a negative return meaning "needs
that much more"), `decr` like a variable-power equipment shedding up to
its current power. -/
def devStep : DevModel where
  incr := fun e a =>
    if e.maxPower ≤ a then (some (a - e.maxPower), { e with currentPower := some e.maxPower })
    else (some (a - e.maxPower), e)
  decr := fun e a =>
    match e.currentPower with
    | some p =>
      if a ≤ p then (some a, { e with currentPower := some (p - a) })
      else if 0 ≤ p then (some p, { e with currentPower := some 0 })
      else (some 0, e)
    | none => (none, e)

/-- The decreases of `devStep` are always bounded by the request. -/
theorem devStep_decr_bounded :
    ∀ e a r e2, 0 < a → devStep.decr e a = (some r, e2) → 0 ≤ r ∧ r ≤ a := by
  intro e a r e2 ha h
  simp only [devStep] at h
  rcases hp : e.currentPower with _ | p
  · rw [hp] at h; simp at h
  · rw [hp] at h
    by_cases h1 : a ≤ p
    · simp [h1] at h
      omega
    · by_cases h2 : 0 ≤ p
      · simp [h1, h2] at h
        omega
      · simp [h1, h2] at h
        omega

/-- The blocked discrete 600 W equipment of the C3 counterexample, off. -/
def eqA : Equipment := ⟨"A", 600, some 0, 0, none⟩

/-- The lower-priority 200 W-drawing equipment of the C3 counterexample. -/
def eqB : Equipment := ⟨"B", 1000, some 200, 0, none⟩

/-- C3 counterexample: with 500 W available, equipment A (600 W discrete
step, currently 0 W) is blocked needing 100 W more; `freeable` over
lower-priority non-forced equipment is 200 W; after recovering 100 W the
retry grants A its full 600 W — a total power increase of 600 W, which
exceeds `freeable = 200`.  The claim "total power increase granted ...
never exceeds freeable" is false at this input. -/
theorem C3_grant_exceeds_freeable_counterexample :
    ((balance devStep 2100 2600 0 100 [eqA, eqB]).eqs[0]?.map Equipment.currentPower
        = some (some 600)) ∧
    REvent.recovery 0 100 200 100 ∈ (balance devStep 2100 2600 0 100 [eqA, eqB]).events ∧
    eqA.currentPower = some 0 ∧
    ¬ ((600 : Int) - 0 ≤ 200) := by
  refine ⟨?_, ?_, rfl, by decide⟩
  · rfl
  · decide

/-- Witness for C3 (amended) on the concrete recovery of the same run:
its freed power (100) is within needed (100), which is within freeable
(200). -/
theorem C3_recovery_freed_within_freeable_witness :
    REvent.recovery 0 100 200 100 ∈ (balance devStep 2100 2600 0 100 [eqA, eqB]).events ∧
    ((100 : Int) ≤ 100 ∧ (100 : Int) ≤ 200) :=
  ⟨by decide, C3_recovery_freed_within_freeable devStep 2100 2600 0 100 [eqA, eqB]
    devStep_decr_bounded (REvent.recovery 0 100 200 100) (by decide) 0 100 200 100 rfl⟩

/-! ### Claims C6 and C7 -/

/-- C6 (amended): the injection message carries the signed value
`consumption - production` only when that value is negative (net export),
and is emitted on every negative injection; a non-negative difference is
clamped to zero and a zero message is emitted only on the transition
(`last_injection ≠ 0`). -/
theorem C6_injection_emission (cons prod lastInj : Int) :
    ((cons - prod < 0 →
        injectionStep cons prod lastInj = (some (cons - prod), cons - prod)) ∧
     (0 ≤ cons - prod →
        (injectionStep cons prod lastInj).2 = 0 ∧
        (lastInj ≠ 0 → (injectionStep cons prod lastInj).1 = some 0) ∧
        (lastInj = 0 → (injectionStep cons prod lastInj).1 = none))) := by
  constructor
  · intro h
    simp [injectionStep, h]
  · intro h
    have hn : ¬ (cons - prod < 0) := by omega
    refine ⟨by by_cases hl : lastInj = 0 <;> simp [injectionStep, hn, hl], ?_, ?_⟩
    · intro hl
      simp [injectionStep, hn, hl]
    · intro hl
      simp [injectionStep, hn, hl]

/-- C6 counterexample: a positive injection (consumption 100, production
0, so `consumption - production = 100 ≠ 0`) emits nothing at all when
`last_injection = 0`, refuting "emitted on every nonzero injection". -/
theorem C6_positive_injection_counterexample :
    (100 : Int) - 0 ≠ 0 ∧ (injectionStep 100 0 0).1 = none := by decide

/-- Witness for C6 at a concrete exporting input. -/
theorem C6_injection_emission_witness :
    ((0 : Int) - 100 < 0) ∧ injectionStep 0 100 0 = (some (0 - 100), 0 - 100) :=
  ⟨by decide, (C6_injection_emission 0 100 0).1 (by decide)⟩

/-- C7: the fallback forces the designated load if and only if
`energy_yesterday + energy_today < LOW_ECS_ENERGY_TWO_DAYS` and
`energy_today < LOW_ECS_ENERGY_TODAY`; when it fires it forces the load
to `max_power` for `3600 * (LOW_ECS_ENERGY_TODAY - energy_today) /
max_power` seconds and sets `energy_yesterday = energy_today`; otherwise
it changes nothing, leaving any existing forced state untouched. -/
theorem C7_fallback_contract (lowTwo lowToday : Int) (wh : Equipment) (eY eT : Int) :
    ((eY + eT < lowTwo ∧ eT < lowToday) →
       low_energy_fallback lowTwo lowToday wh eY eT =
         ({ wh with forced := some (wh.maxPower,
              some (3600 * ((lowToday : ℚ) - (eT : ℚ)) / (wh.maxPower : ℚ))) },
          eT,
          some (wh.maxPower, 3600 * ((lowToday : ℚ) - (eT : ℚ)) / (wh.maxPower : ℚ)))) ∧
    (¬ (eY + eT < lowTwo ∧ eT < lowToday) →
       low_energy_fallback lowTwo lowToday wh eY eT = (wh, eY, none)) := by
  constructor <;> intro h <;> simp [low_energy_fallback, h]

/-- The water heater used by the C7 witness (Scenario 3 of the spec:
yesterday 400, today 100, thresholds 1000 and 300, `max_power` 1000,
giving a 720-second forcing). -/
def whW7 : Equipment := ⟨"ECS", 1000, some 0, 0, none⟩

/-- Witness for C7 on Scenario 3. -/
theorem C7_fallback_contract_witness :
    ((400 : Int) + 100 < 1000 ∧ (100 : Int) < 300) ∧
    low_energy_fallback 1000 300 whW7 400 100 =
      ({ whW7 with forced := some (whW7.maxPower,
           some (3600 * (((300 : Int) : ℚ) - ((100 : Int) : ℚ)) / (whW7.maxPower : ℚ))) },
       100,
       some (whW7.maxPower, 3600 * (((300 : Int) : ℚ) - ((100 : Int) : ℚ)) / (whW7.maxPower : ℚ))) :=
  ⟨by decide, (C7_fallback_contract 1000 300 whW7 400 100).1 (by decide)⟩

/-! ### Scheduler-level helper lemmas -/

/-- Frame facts: `evalCore` always stamps `last_evaluation_date` with the current tick
and never touches the energy counters, the forecast or the heater index. -/
theorem evalCore_fields (cfg : Config) (dev : DevModel) (t : Int) (st : RegState)
    (pubs0 : List PubEvent) :
    (evalCore cfg dev t st pubs0).state.lastEvaluationDate = some t ∧
    (evalCore cfg dev t st pubs0).state.ecsEnergyToday = st.ecsEnergyToday ∧
    (evalCore cfg dev t st pubs0).state.ecsEnergyYesterday = st.ecsEnergyYesterday := by
  rcases hp : st.powerProduction with _ | prod
  · simp [evalCore, hp]
  rcases hc : st.powerConsumption with _ | cons
  · simp [evalCore, hp, hc]
  by_cases hcr : (balance dev cons prod cfg.MARGIN cfg.BALANCE_THRESHOLD st.equipments).crashed
  · simp [evalCore, hp, hc, hcr]
  · simp [evalCore, hp, hc, hcr]

/-- The outcomes `evalCore` can produce. -/
theorem evalCore_outcome (cfg : Config) (dev : DevModel) (t : Int) (st : RegState)
    (pubs0 : List PubEvent) :
    (evalCore cfg dev t st pubs0).outcome = Outcome.skippedReadings ∨
    (evalCore cfg dev t st pubs0).outcome = Outcome.failedBalance ∨
    (evalCore cfg dev t st pubs0).outcome = Outcome.completed := by
  rcases hp : st.powerProduction with _ | prod
  · simp [evalCore, hp]
  rcases hc : st.powerConsumption with _ | cons
  · simp [evalCore, hp, hc]
  by_cases hcr : (balance dev cons prod cfg.MARGIN cfg.BALANCE_THRESHOLD st.equipments).crashed
  · simp [evalCore, hp, hc, hcr]
  · simp [evalCore, hp, hc, hcr]

/-- When `evalCore` does not complete, it publishes nothing beyond what it
was handed. -/
theorem evalCore_unfinished_pubs (cfg : Config) (dev : DevModel) (t : Int) (st : RegState)
    (pubs0 : List PubEvent)
    (h : (evalCore cfg dev t st pubs0).outcome ≠ Outcome.completed) :
    (evalCore cfg dev t st pubs0).pubs = pubs0 := by
  rcases hp : st.powerProduction with _ | prod
  · simp [evalCore, hp]
  rcases hc : st.powerConsumption with _ | cons
  · simp [evalCore, hp, hc]
  by_cases hcr : (balance dev cons prod cfg.MARGIN cfg.BALANCE_THRESHOLD st.equipments).crashed
  · simp [evalCore, hp, hc, hcr]
  · exact absurd (by simp [evalCore, hp, hc, hcr]) h

/-- The day-rollover block never publishes a status snapshot (it emits at
most the fallback's forcing action). -/
theorem rolloverStep_no_status (cfg : Config) (cloud : Option Int) (st : RegState) :
    PubEvent.status ∉ (rolloverStep cfg cloud st).pubs := by
  rcases cloud with _ | c
  · simp [rolloverStep]
  · unfold rolloverStep lowEnergyFallbackStep
    rcases hwh : (st.equipments.map (fun e => { e with energy := 0 }))[st.whIdx]? with _ | wh
    · simp [hwh]
    · simp only [hwh]
      rcases hact : (low_energy_fallback cfg.LOW_ECS_ENERGY_TWO_DAYS cfg.LOW_ECS_ENERGY_TODAY
          wh st.ecsEnergyYesterday ((st.equipments[st.whIdx]?.map Equipment.energy).getD 0)).2.2
        with _ | pd
      · simp [hact]
      · rcases pd with ⟨p, d⟩
        simp [hact]

/-- A concrete calendar-day function for witnesses: timestamps below 1
fall on day 1, the rest on day 2. -/
def dayOfW : Int → Int := fun q => if q < 10 then 1 else 2

/-! ### Claim C8 -/

/-- C8: when a previous evaluation exists, the calendar day is unchanged
and fewer than `EVALUATION_PERIOD` seconds have elapsed, the request is
skipped entirely — identical state (every field, including
`last_evaluation_time` and the energy counters) and nothing published;
and this guard is bypassed whenever no previous evaluation exists. -/
theorem C8_rate_limit_guard (cfg : Config) (dev : DevModel) (cloud : Option Int)
    (dayOf : Int → Int) (t t0 : Int) (st : RegState)
    (h0 : st.lastEvaluationDate = some t0) (hday : dayOf t0 = dayOf t)
    (hrate : t - t0 < cfg.EVALUATION_PERIOD) :
    evaluate cfg dev cloud dayOf t st = ⟨st, [], Outcome.skippedRate⟩ ∧
    ∀ st2 : RegState, st2.lastEvaluationDate = none →
      (evaluate cfg dev cloud dayOf t st2).outcome ≠ Outcome.skippedRate := by
  constructor
  · simp [evaluate, h0, hday, hrate]
  · intro st2 h2
    have h := evalCore_outcome cfg dev t st2 []
    simp only [evaluate, h2]
    rcases h with h | h | h <;> simp [h]

/-- Witness for C8: a concrete same-day request 1 second after the
previous evaluation with a 60-second period is skipped unchanged, and a
fresh state (no previous evaluation) is never rate-skipped. -/
theorem C8_rate_limit_guard_witness :
    ((⟨some 0, -1, some 0, some 0, 0, 5, 999, [whForced], 0⟩ : RegState).lastEvaluationDate
        = some 0 ∧ dayOfW 0 = dayOfW 5 ∧
        (5 : Int) - 0 < (⟨60, 50, 0, 0, 0⟩ : Config).EVALUATION_PERIOD) ∧
    (evaluate ⟨60, 50, 0, 0, 0⟩ devZero none dayOfW 5
        ⟨some 0, -1, some 0, some 0, 0, 5, 999, [whForced], 0⟩ =
      ⟨⟨some 0, -1, some 0, some 0, 0, 5, 999, [whForced], 0⟩, [], Outcome.skippedRate⟩ ∧
    ∀ st2 : RegState, st2.lastEvaluationDate = none →
      (evaluate ⟨60, 50, 0, 0, 0⟩ devZero none dayOfW 5 st2).outcome ≠
        Outcome.skippedRate) :=
  ⟨⟨rfl, by decide, by decide⟩,
    C8_rate_limit_guard ⟨60, 50, 0, 0, 0⟩ devZero none dayOfW 5 0
      ⟨some 0, -1, some 0, some 0, 0, 5, 999, [whForced], 0⟩ rfl (by decide) (by decide)⟩

/-! ### Claim C5 -/

/-- C5 (amended): failures are caught at the evaluation boundary and
swallowed (`evaluate` always returns a state).  For a failure raised
during balancing — i.e. after both guards — `last_evaluation_time` was
already advanced to the current tick before the failure; a failure inside
the day-rollover block (such as the forecast fetch) occurs before
`last_evaluation_time` is advanced. -/
theorem C5_failed_balance_timestamp_advanced (cfg : Config) (dev : DevModel)
    (cloud : Option Int) (dayOf : Int → Int) (t : Int) (st : RegState)
    (h : (evaluate cfg dev cloud dayOf t st).outcome = Outcome.failedBalance) :
    (evaluate cfg dev cloud dayOf t st).state.lastEvaluationDate = some t := by
  rcases h0 : st.lastEvaluationDate with _ | t0
  · simp only [evaluate, h0]
    exact (evalCore_fields cfg dev t st []).1
  · by_cases hday : dayOf t0 = dayOf t
    · by_cases hrate : t - t0 < cfg.EVALUATION_PERIOD
      · rw [show evaluate cfg dev cloud dayOf t st = ⟨st, [], Outcome.skippedRate⟩ from by
          simp [evaluate, h0, hday, hrate]] at h
        cases h
      · have hsh : evaluate cfg dev cloud dayOf t st = evalCore cfg dev t st [] := by
          simp [evaluate, h0, hday, hrate]
        rw [hsh]
        exact (evalCore_fields cfg dev t st []).1
    · by_cases hok : (rolloverStep cfg cloud st).ok = false
      · rw [show evaluate cfg dev cloud dayOf t st =
            ⟨(rolloverStep cfg cloud st).state, (rolloverStep cfg cloud st).pubs,
              Outcome.failedCloud⟩ from by simp [evaluate, h0, hday, hok]] at h
        cases h
      · by_cases hrate : t - t0 < cfg.EVALUATION_PERIOD
        · rw [show evaluate cfg dev cloud dayOf t st =
              ⟨(rolloverStep cfg cloud st).state, (rolloverStep cfg cloud st).pubs,
                Outcome.skippedRate⟩ from by simp [evaluate, h0, hday, hok, hrate]] at h
          cases h
        · rw [show evaluate cfg dev cloud dayOf t st =
              evalCore cfg dev t (rolloverStep cfg cloud st).state
                (rolloverStep cfg cloud st).pubs from by
            simp [evaluate, h0, hday, hok, hrate]]
          exact (evalCore_fields cfg dev t (rolloverStep cfg cloud st).state
            (rolloverStep cfg cloud st).pubs).1

/-- The water heater state used by the scheduler-level witnesses. -/
def whW4 : Equipment := ⟨"ECS", 1000, some 0, 10, none⟩

/-- Regulation state on the evening of day 1: last evaluation at time 0,
5 Ws accumulated today, readings not yet known. -/
def stW4 : RegState := ⟨some 0, -1, none, none, 0, 5, 999, [whW4], 0⟩

/-- C5 counterexample: a rollover tick whose forecast fetch fails ends in
a swallowed failure, yet `last_evaluation_time` still holds the previous
tick (0), not the current tick (20) — the claim that it "was already
advanced before the point of failure" is false for this evaluation. -/
theorem C5_rollover_failure_counterexample :
    (evaluate ⟨60, 50, 0, 0, 0⟩ devZero none dayOfW 20 stW4).outcome = Outcome.failedCloud ∧
    (evaluate ⟨60, 50, 0, 0, 0⟩ devZero none dayOfW 20 stW4).state.lastEvaluationDate = some 0 ∧
    some (0 : Int) ≠ some (20 : Int) := by
  refine ⟨by decide, by decide, by decide⟩

/-- A device that reports a 50 W shortfall on any increase and leaves all
decreases unconfirmed — driving the recovery loop into its `None` crash. -/
def devCrash : DevModel where
  incr := fun e _ => (some (-50), e)
  decr := fun e _ => (none, e)

/-- Regulation state with both readings known and no previous evaluation. -/
def stW5 : RegState := ⟨none, -1, some 2600, some 2100, 0, 0, 999, [eqA, eqB], 0⟩

/-- Witness for C5: a concrete balancing failure (recovery-loop crash)
for which the timestamp was indeed already advanced. -/
theorem C5_failed_balance_timestamp_advanced_witness :
    (evaluate ⟨0, 100, 0, 0, 0⟩ devCrash none dayOfW 3 stW5).outcome =
      Outcome.failedBalance ∧
    (evaluate ⟨0, 100, 0, 0, 0⟩ devCrash none dayOfW 3 stW5).state.lastEvaluationDate =
      some 3 :=
  ⟨by decide, C5_failed_balance_timestamp_advanced ⟨0, 100, 0, 0, 0⟩ devCrash none dayOfW 3
    stW5 (by decide)⟩

/-! ### Claim C4 -/

/-- Rollover arithmetic: after the day-rollover block, `energy_today`
holds the heater's accumulator and `energy_yesterday` is rewritten (to
that same new value) exactly when the fallback fires. -/
theorem rolloverStep_energy (cfg : Config) (c : Int) (st : RegState) (wh : Equipment)
    (hwh : st.equipments[st.whIdx]? = some wh) :
    (rolloverStep cfg (some c) st).state.ecsEnergyToday = wh.energy ∧
    (rolloverStep cfg (some c) st).state.ecsEnergyYesterday =
      (if st.ecsEnergyYesterday + wh.energy < cfg.LOW_ECS_ENERGY_TWO_DAYS ∧
          wh.energy < cfg.LOW_ECS_ENERGY_TODAY
       then wh.energy else st.ecsEnergyYesterday) ∧
    (rolloverStep cfg (some c) st).ok = true := by
  unfold rolloverStep lowEnergyFallbackStep
  simp only [hwh, Option.map_some, Option.getD_some, List.getElem?_map]
  by_cases hcond : st.ecsEnergyYesterday + wh.energy < cfg.LOW_ECS_ENERGY_TWO_DAYS ∧
      wh.energy < cfg.LOW_ECS_ENERGY_TODAY
  · simp [low_energy_fallback, hcond]
  · simp [low_energy_fallback, hcond]

/-- C4 (amended): on every day rollover (with a successful forecast
fetch), `energy_today` is reset from the designated load's accumulator
before the Fallback Policy decision; `energy_yesterday` is **not** rotated
to the previous `energy_today` — it is overwritten (with the new
`energy_today`) only when the fallback fires, and otherwise untouched. -/
theorem C4_rollover_energy_counters (cfg : Config) (dev : DevModel) (c : Int)
    (dayOf : Int → Int) (t t0 : Int) (st : RegState) (wh : Equipment)
    (h0 : st.lastEvaluationDate = some t0) (hday : dayOf t0 ≠ dayOf t)
    (hwh : st.equipments[st.whIdx]? = some wh) :
    (evaluate cfg dev (some c) dayOf t st).state.ecsEnergyToday = wh.energy ∧
    (evaluate cfg dev (some c) dayOf t st).state.ecsEnergyYesterday =
      (if st.ecsEnergyYesterday + wh.energy < cfg.LOW_ECS_ENERGY_TWO_DAYS ∧
          wh.energy < cfg.LOW_ECS_ENERGY_TODAY
       then wh.energy else st.ecsEnergyYesterday) := by
  have hr := rolloverStep_energy cfg c st wh hwh
  have hsh : evaluate cfg dev (some c) dayOf t st =
      (if t - t0 < cfg.EVALUATION_PERIOD then
        ⟨(rolloverStep cfg (some c) st).state, (rolloverStep cfg (some c) st).pubs,
          Outcome.skippedRate⟩
       else evalCore cfg dev t (rolloverStep cfg (some c) st).state
         (rolloverStep cfg (some c) st).pubs) := by
    simp [evaluate, h0, hday, hr.2.2]
  by_cases hrate : t - t0 < cfg.EVALUATION_PERIOD
  · rw [hsh, if_pos hrate]
    exact ⟨hr.1, hr.2.1⟩
  · rw [hsh, if_neg hrate]
    have hc := evalCore_fields cfg dev t (rolloverStep cfg (some c) st).state
      (rolloverStep cfg (some c) st).pubs
    rw [hc.2.1, hc.2.2]
    exact ⟨hr.1, hr.2.1⟩

/-- C4 counterexample: on a rollover where the fallback does not fire,
`energy_yesterday` stays 0 instead of receiving the previous
`energy_today` (5) — the unconditional rotation
`energy_yesterday ← energy_today` claimed for every day boundary does not
happen. -/
theorem C4_no_rotation_counterexample :
    stW4.ecsEnergyToday = 5 ∧
    (evaluate ⟨100, 50, 0, 0, 0⟩ devZero (some 50) dayOfW 20 stW4).state.ecsEnergyYesterday
      = 0 ∧
    (evaluate ⟨100, 50, 0, 0, 0⟩ devZero (some 50) dayOfW 20 stW4).state.ecsEnergyToday
      = 10 ∧
    (0 : Int) ≠ 5 := by
  refine ⟨rfl, by decide, by decide, by decide⟩

/-- Witness for C4 (amended) at the same concrete rollover. -/
theorem C4_rollover_energy_counters_witness :
    (stW4.lastEvaluationDate = some 0 ∧ dayOfW 0 ≠ dayOfW 20 ∧
      stW4.equipments[stW4.whIdx]? = some whW4) ∧
    ((evaluate ⟨100, 50, 0, 0, 0⟩ devZero (some 50) dayOfW 20 stW4).state.ecsEnergyToday
        = whW4.energy ∧
     (evaluate ⟨100, 50, 0, 0, 0⟩ devZero (some 50) dayOfW 20 stW4).state.ecsEnergyYesterday
        = (if stW4.ecsEnergyYesterday + whW4.energy <
              (⟨100, 50, 0, 0, 0⟩ : Config).LOW_ECS_ENERGY_TWO_DAYS ∧
            whW4.energy < (⟨100, 50, 0, 0, 0⟩ : Config).LOW_ECS_ENERGY_TODAY
           then whW4.energy else stW4.ecsEnergyYesterday)) :=
  ⟨⟨rfl, by decide, rfl⟩,
    C4_rollover_energy_counters ⟨100, 50, 0, 0, 0⟩ devZero 50 dayOfW 20 0 stW4 whW4
      rfl (by decide) rfl⟩

/-! ### Claim C10 -/

/-- C10: in the recovery loop, a `None` return from `decrease_power_by`
is not a clean early stop: `freed_power += None` raises, so the loop
aborts immediately (keeping the device commands already issued, including
the one that returned `None`) and the whole evaluation fails through the
boundary handler — and a failed evaluation never publishes the status
snapshot for that tick. -/
theorem C10_recovery_none_aborts (dev : DevModel) (j : Nat) (rest : List Nat)
    (eqs : List Equipment) (freed needed : Int) (o o' : Equipment)
    (hj : eqs[j]? = some o) (hnf : ¬ o.forced.isSome)
    (hdv : dev.decr o needed = (none, o')) :
    recoveryLoop dev (j :: rest) eqs freed needed =
      ⟨eqs.set j o', freed, needed, [REvent.decr j needed none], true⟩ ∧
    ∀ (cfg : Config) (dev2 : DevModel) (cloud : Option Int) (dayOf : Int → Int)
      (t : Int) (st : RegState),
      ((evaluate cfg dev2 cloud dayOf t st).outcome = Outcome.failedCloud ∨
       (evaluate cfg dev2 cloud dayOf t st).outcome = Outcome.failedBalance) →
      PubEvent.status ∉ (evaluate cfg dev2 cloud dayOf t st).pubs := by
  constructor
  · simp [recoveryLoop, hj, hnf, hdv]
  · intro cfg dev2 cloud dayOf t st h
    have hnc : ∀ (st1 : RegState) (pubs1 : List PubEvent),
        PubEvent.status ∉ pubs1 →
        (evalCore cfg dev2 t st1 pubs1).outcome ≠ Outcome.completed →
        PubEvent.status ∉ (evalCore cfg dev2 t st1 pubs1).pubs := by
      intro st1 pubs1 hp hne
      rw [evalCore_unfinished_pubs cfg dev2 t st1 pubs1 hne]
      exact hp
    rcases h0 : st.lastEvaluationDate with _ | t0
    · simp only [evaluate, h0] at h ⊢
      refine hnc st [] (by simp) ?_
      rcases h with h | h <;> rw [h] <;> simp
    · by_cases hday : dayOf t0 = dayOf t
      · by_cases hrate : t - t0 < cfg.EVALUATION_PERIOD
        · simp [evaluate, h0, hday, hrate] at h
        · have hsh : evaluate cfg dev2 cloud dayOf t st = evalCore cfg dev2 t st [] := by
            simp [evaluate, h0, hday, hrate]
          rw [hsh] at h ⊢
          refine hnc st [] (by simp) ?_
          rcases h with h | h <;> rw [h] <;> simp
      · by_cases hok : (rolloverStep cfg cloud st).ok = false
        · have : evaluate cfg dev2 cloud dayOf t st =
              ⟨(rolloverStep cfg cloud st).state, (rolloverStep cfg cloud st).pubs,
                Outcome.failedCloud⟩ := by
            simp [evaluate, h0, hday, hok]
          rw [this]
          exact rolloverStep_no_status cfg cloud st
        · by_cases hrate : t - t0 < cfg.EVALUATION_PERIOD
          · have : evaluate cfg dev2 cloud dayOf t st =
                ⟨(rolloverStep cfg cloud st).state, (rolloverStep cfg cloud st).pubs,
                  Outcome.skippedRate⟩ := by
              simp [evaluate, h0, hday, hok, hrate]
            rw [this] at h
            simp at h
          · have hsh : evaluate cfg dev2 cloud dayOf t st =
                evalCore cfg dev2 t (rolloverStep cfg cloud st).state
                  (rolloverStep cfg cloud st).pubs := by
              simp [evaluate, h0, hday, hok, hrate]
            rw [hsh] at h ⊢
            refine hnc _ _ (rolloverStep_no_status cfg cloud st) ?_
            rcases h with h | h <;> rw [h] <;> simp

/-- Witness for C10: a concrete recovery-loop crash and its effect. -/
theorem C10_recovery_none_aborts_witness :
    (recoveryLoop devCrash [0] [eqB] 0 50 =
      ⟨[eqB].set 0 eqB, 0, 50, [REvent.decr 0 50 none], true⟩ ∧
    ∀ (cfg : Config) (dev2 : DevModel) (cloud : Option Int) (dayOf : Int → Int)
      (t : Int) (st : RegState),
      ((evaluate cfg dev2 cloud dayOf t st).outcome = Outcome.failedCloud ∨
       (evaluate cfg dev2 cloud dayOf t st).outcome = Outcome.failedBalance) →
      PubEvent.status ∉ (evaluate cfg dev2 cloud dayOf t st).pubs) :=
  C10_recovery_none_aborts devCrash 0 [] [eqB] 0 50 eqB eqB rfl (by decide) rfl

end Solar
